import Mathlib

/-!
Verification development for `monitor.py`, a single-shot bicycle-rental
monitor.  The script loads a persisted set of previously seen record
identities, fetches per-bike rental history from a JSON HTTP API, derives a
string identity per record, collects the identities fetched this run,
notifies a webhook once per record judged new, and persists the union of the
prior and current identity sets unless a data-loss guard fires.

The embedding below models the Python values flowing through the script as a
small JSON value type (`JVal`), the parsed state file as a `Finset String`,
a single entity fetch as a `FetchOutcome` (the value `fetch_history`
returns), and `main`'s body as the pure function `runMain`.  Python
exceptions that escape to `main`'s top-level `except` are modelled with
`Except`; the outcome of each webhook POST (caught inside
`send_discord_notification`) is an oracle `deliver : Record → Bool`.
-/

/-- A JSON value as `json.loads` produces it: `null`/`None`, booleans,
integers, strings, arrays and objects.  (The script's claims never inspect
non-integral numbers, so numbers are modelled as integers.) -/
inductive JVal where
  | jnull : JVal
  | jbool : Bool → JVal
  | jnum : Int → JVal
  | jstr : String → JVal
  | jarr : List JVal → JVal
  | jobj : List (String × JVal) → JVal

/-- Python truthiness of a JSON value: `None`, `False`, `0`, `""`, `[]` and
`{}` are falsy, everything else truthy. -/
def JVal.truthy : JVal → Bool
  | .jnull => false
  | .jbool b => b
  | .jnum n => n != 0
  | .jstr s => s != ""
  | .jarr xs => !xs.isEmpty
  | .jobj fs => !fs.isEmpty

/-- Whether a value is Python's empty list `[]` (the value `fetch_history`
returns after exhausting its attempts). -/
def JVal.isEmptyList : JVal → Bool
  | .jarr [] => true
  | _ => false

mutual

/-- Python `repr` of a JSON value (element rendering used by `str` on
containers; string escaping is not modelled). -/
def JVal.pyRepr : JVal → String
  | .jnull => "None"
  | .jbool true => "True"
  | .jbool false => "False"
  | .jnum n => toString n
  | .jstr s => "'" ++ s ++ "'"
  | .jarr xs => "[" ++ JVal.pyReprList xs ++ "]"
  | .jobj fs => "\x7b" ++ JVal.pyReprFields fs ++ "\x7d"

/-- `repr` of the elements of a list, comma separated. -/
def JVal.pyReprList : List JVal → String
  | [] => ""
  | [x] => x.pyRepr
  | x :: y :: rest => x.pyRepr ++ ", " ++ JVal.pyReprList (y :: rest)

/-- `repr` of the entries of a dict, comma separated. -/
def JVal.pyReprFields : List (String × JVal) → String
  | [] => ""
  | [(k, v)] => "'" ++ k ++ "': " ++ v.pyRepr
  | (k, v) :: e :: rest =>
      "'" ++ k ++ "': " ++ v.pyRepr ++ ", " ++ JVal.pyReprFields (e :: rest)

end

/-- Python `str` of a JSON value, as an f-string renders it: like `repr`
except that a top-level string is rendered without quotes. -/
def JVal.pyStr : JVal → String
  | .jstr s => s
  | v => v.pyRepr

/-- Python equality of a JSON value with a string literal (`v == "-"` and
the like): true exactly for that string. -/
def JVal.eqStr : JVal → String → Bool
  | .jstr t, s => t == s
  | _, _ => false

/-- A fetched record: the JSON object `json.loads` yields, a keyed list of
fields.  Duplicate keys behave as in Python, the last occurrence wins. -/
abbrev Record := List (String × JVal)

/-- Field lookup in a JSON object; the last binding of the key wins, as in
`json.loads`. -/
def Record.lookupLast (r : Record) (key : String) : Option JVal :=
  r.foldl (fun acc kv => if kv.1 = key then some kv.2 else acc) none

/-- Python `record.get(key)`: the stored value, or `None` when the key is
absent. -/
def Record.get (r : Record) (key : String) : JVal :=
  (r.lookupLast key).getD .jnull

/-- Python `record.get(key, default)`: the stored value (even when it is
`None`), or the default when the key is absent. -/
def Record.getD (r : Record) (key : String) (dflt : JVal) : JVal :=
  (r.lookupLast key).getD dflt

/-- The Record Identity Function, line 137 of `monitor.py`:
`f"{record.get('bike_id')}_{record.get('scheduled_start')}_{record.get('end_date')}"`. -/
def recordKey (r : Record) : String :=
  (r.get "bike_id").pyStr ++ "_" ++ (r.get "scheduled_start").pyStr ++ "_"
    ++ (r.get "end_date").pyStr

/-! ### `format_datetime` (lines 36-47)

The Python function guards falsy values and the `"-"` sentinel, then inside
a bare `try`/`except` strips every `Z`, parses with
`strptime('%Y-%m-%dT%H:%M:%S.%f')`, adds nine hours and reformats with
`strftime('%Y/%m/%d %H:%M')`; any exception falls back to returning the
input unchanged.  The parser below reproduces `strptime`'s regex for that
format (ordered alternations with backtracking, full-match required) and
the `datetime` constructor's range checks; the nine-hour shift reproduces
`timedelta` rollover, with years past 9999 an overflow (an exception, hence
a fallback). -/

/-- A backtracking parser over characters: every parse in priority order. -/
abbrev P (α : Type) := List Char → List (α × List Char)

/-- Numeric value of a digit character. -/
def dVal (c : Char) : Nat := c.toNat - '0'.toNat

/-- Whether a character lies in an inclusive character range. -/
def inRange (lo hi c : Char) : Bool := lo ≤ c && c ≤ hi

/-- A literal character, as in the `strptime` pattern's separators. -/
def pLit (c : Char) : P Unit := fun cs =>
  match cs with
  | d :: rest => if d = c then [((), rest)] else []
  | [] => []

/-- `%Y`: exactly four digits. -/
def pYear : P Nat := fun cs =>
  match cs with
  | a :: b :: c :: d :: rest =>
    if a.isDigit && b.isDigit && c.isDigit && d.isDigit then
      [(1000 * dVal a + 100 * dVal b + 10 * dVal c + dVal d, rest)]
    else []
  | _ => []

/-- `%m`: the alternation `1[0-2]|0[1-9]|[1-9]`, in that order. -/
def pMonth : P Nat := fun cs =>
  (match cs with
   | a :: b :: rest =>
     (if a = '1' && inRange '0' '2' b then [(10 + dVal b, rest)] else []) ++
     (if a = '0' && inRange '1' '9' b then [(dVal b, rest)] else [])
   | _ => []) ++
  (match cs with
   | a :: rest => if inRange '1' '9' a then [(dVal a, rest)] else []
   | _ => [])

/-- `%d`: the alternation `3[01]|[12][0-9]|0[1-9]|[1-9]`, in that order. -/
def pDay : P Nat := fun cs =>
  (match cs with
   | a :: b :: rest =>
     (if a = '3' && inRange '0' '1' b then [(30 + dVal b, rest)] else []) ++
     (if inRange '1' '2' a && b.isDigit then [(10 * dVal a + dVal b, rest)] else []) ++
     (if a = '0' && inRange '1' '9' b then [(dVal b, rest)] else [])
   | _ => []) ++
  (match cs with
   | a :: rest => if inRange '1' '9' a then [(dVal a, rest)] else []
   | _ => [])

/-- `%H`: the alternation `2[0-3]|[0-1][0-9]|[0-9]`, in that order. -/
def pHour : P Nat := fun cs =>
  (match cs with
   | a :: b :: rest =>
     (if a = '2' && inRange '0' '3' b then [(20 + dVal b, rest)] else []) ++
     (if inRange '0' '1' a && b.isDigit then [(10 * dVal a + dVal b, rest)] else [])
   | _ => []) ++
  (match cs with
   | a :: rest => if a.isDigit then [(dVal a, rest)] else []
   | _ => [])

/-- `%M`: the alternation `[0-5][0-9]|[0-9]`, in that order. -/
def pMinute : P Nat := fun cs =>
  (match cs with
   | a :: b :: rest =>
     if inRange '0' '5' a && b.isDigit then [(10 * dVal a + dVal b, rest)] else []
   | _ => []) ++
  (match cs with
   | a :: rest => if a.isDigit then [(dVal a, rest)] else []
   | _ => [])

/-- `%S`: the alternation `6[0-1]|[0-5][0-9]|[0-9]`, in that order. -/
def pSecond : P Nat := fun cs =>
  (match cs with
   | a :: b :: rest =>
     (if a = '6' && inRange '0' '1' b then [(60 + dVal b, rest)] else []) ++
     (if inRange '0' '5' a && b.isDigit then [(10 * dVal a + dVal b, rest)] else [])
   | _ => []) ++
  (match cs with
   | a :: rest => if a.isDigit then [(dVal a, rest)] else []
   | _ => [])

/-- A greedy run of exactly `k` digits, with its value. -/
def takeDigits (k : Nat) (cs : List Char) : List (Nat × List Char) :=
  let pre := cs.take k
  if pre.length = k && pre.all Char.isDigit then
    [(pre.foldl (fun acc c => acc * 10 + dVal c) 0, cs.drop k)]
  else []

/-- `%f`: one to six digits, greedy (longest first, backtracking shorter). -/
def pFrac : P Nat := fun cs =>
  takeDigits 6 cs ++ takeDigits 5 cs ++ takeDigits 4 cs ++ takeDigits 3 cs ++
    takeDigits 2 cs ++ takeDigits 1 cs

/-- A broken-down timestamp as `strptime` yields it for this pattern. -/
structure DT where
  y : Nat
  m : Nat
  d : Nat
  hh : Nat
  mi : Nat
  ss : Nat

/-- All full-input matches of `%Y-%m-%dT%H:%M:%S.%f`, in the regex engine's
backtracking order; `strptime` uses the first. -/
def isoMatches (cs : List Char) : List DT :=
  (pYear cs).flatMap fun yr =>
  (pLit '-' yr.2).flatMap fun s1 =>
  (pMonth s1.2).flatMap fun mo =>
  (pLit '-' mo.2).flatMap fun s2 =>
  (pDay s2.2).flatMap fun dy =>
  (pLit 'T' dy.2).flatMap fun s3 =>
  (pHour s3.2).flatMap fun hr =>
  (pLit ':' hr.2).flatMap fun s4 =>
  (pMinute s4.2).flatMap fun mn =>
  (pLit ':' mn.2).flatMap fun s5 =>
  (pSecond s5.2).flatMap fun sc =>
  (pLit '.' sc.2).flatMap fun s6 =>
  (pFrac s6.2).flatMap fun fr =>
  if fr.2.isEmpty then [⟨yr.1, mo.1, dy.1, hr.1, mn.1, sc.1⟩] else []

/-- Gregorian leap year, as `datetime` uses it. -/
def isLeap (y : Nat) : Bool := y % 4 = 0 && (y % 100 ≠ 0 || y % 400 = 0)

/-- Days in a month of a given year. -/
def daysInMonth (y m : Nat) : Nat :=
  if m = 2 then (if isLeap y then 29 else 28)
  else if m = 4 || m = 6 || m = 9 || m = 11 then 30
  else 31

/-- The `datetime` constructor's extra checks beyond the regex: year at
least `MINYEAR`, day valid for the month, second at most 59. -/
def dtValid (t : DT) : Bool :=
  1 ≤ t.y && 1 ≤ t.d && t.d ≤ daysInMonth t.y t.m && t.ss ≤ 59

/-- `dt + timedelta(hours=9)`, with day/month/year rollover; `none` models
the `OverflowError` past year 9999, which the bare `except` catches. -/
def addNineHours (t : DT) : Option DT :=
  let h2 := t.hh + 9
  if h2 < 24 then some { t with hh := h2 }
  else
    let h3 := h2 - 24
    if t.d + 1 ≤ daysInMonth t.y t.m then some { t with hh := h3, d := t.d + 1 }
    else if t.m + 1 ≤ 12 then some { t with hh := h3, d := 1, m := t.m + 1 }
    else if t.y + 1 ≤ 9999 then some { t with hh := h3, d := 1, m := 1, y := t.y + 1 }
    else none

/-- Zero-pad a number to a width, as `strftime`'s numeric directives do. -/
def padNum (w n : Nat) : String :=
  let s := toString n
  String.mk (List.replicate (w - s.length) '0') ++ s

/-- `strftime('%Y/%m/%d %H:%M')`. -/
def strftimeOut (t : DT) : String :=
  padNum 4 t.y ++ "/" ++ padNum 2 t.m ++ "/" ++ padNum 2 t.d ++ " " ++
    padNum 2 t.hh ++ ":" ++ padNum 2 t.mi

/-- The `try` body of `format_datetime` on a string: strip every `Z`, parse,
validate, shift to JST, reformat; `none` is any exception (parse failure,
invalid date, overflow), which returns the input unchanged. -/
def jstFormat (s : String) : Option String :=
  match (isoMatches (s.data.filter (fun c => c ≠ 'Z'))).head? with
  | some t => if dtValid t then (addNineHours t).map strftimeOut else none
  | none => none

/-- `format_datetime` (lines 36-47): total on every Python value.  Falsy
inputs and the `"-"` sentinel yield `"-"`; strings are parsed and converted
(falling back to the input string); any other value raises inside the
`try` (`.replace` on a non-string) and is returned unchanged by the
`except`. -/
def format_datetime (v : JVal) : JVal :=
  if !v.truthy || v.eqStr "-" then .jstr "-"
  else
    match v with
    | .jstr s =>
      match jstFormat s with
      | some out => .jstr out
      | none => .jstr s
    | w => w

/-! ### Message formatting (lines 49-90 of `send_discord_notification`)

Everything before the `urllib.request.Request` call is pure formatting.  It
is NOT wrapped in a `try`: the membership tests `"…" in name` and the
subscripts `location['y']`, `location['x']` raise `TypeError` for
inhospitable values, and such an exception propagates out of
`send_discord_notification` into `main`'s top-level `except`, aborting the
run.  `formatMessage` returns `Except.error ()` exactly where the Python
raises. -/

/-- Whether one character list is a prefix of another. -/
def prefixChars : List Char → List Char → Bool
  | [], _ => true
  | _ :: _, [] => false
  | a :: as, b :: bs => a == b && prefixChars as bs

/-- Whether `needle` occurs as a contiguous run inside `hay`. -/
def containsChars (needle : List Char) : List Char → Bool
  | [] => needle.isEmpty
  | c :: rest => prefixChars needle (c :: rest) || containsChars needle rest

/-- Whether `needle` occurs as a substring of `s` (Python `in` on two
strings).  An empty needle always matches, as in Python. -/
def substrB (needle s : String) : Bool :=
  containsChars needle.data s.data

/-- Python `needle in hay` for a string needle and a JSON value: substring
test on strings, element equality on lists, key membership on dicts;
`TypeError` (an error) on `None`, booleans and numbers. -/
def pyContainsStr (needle : String) (hay : JVal) : Except Unit Bool :=
  match hay with
  | .jstr s => .ok (substrB needle s)
  | .jarr xs => .ok (xs.any fun v => match v with | .jstr t => t == needle | _ => false)
  | .jobj fs => .ok (fs.any fun kv => kv.1 == needle)
  | _ => .error ()

/-- Python `hay[key]` for a string key: dict lookup (the checked key is
present wherever the code subscripts, so `KeyError` cannot arise there);
`TypeError` (an error) on every non-dict, including strings and lists. -/
def pySubscript (hay : JVal) (key : String) : Except Unit JVal :=
  match hay with
  | .jobj fs =>
    match Record.lookupLast fs key with
    | some v => .ok v
    | none => .error ()
  | _ => .error ()

/-- The feature-tag block (lines 63-67): three membership tests against the
name and the parenthesised tag list.  The `or` between the two
child-seat needles is evaluated without short-circuit here, which raises in
exactly the same cases: `needle in name` raises by the type of `name`
alone, never by the needle. -/
def featureText (name : JVal) : Except Unit String := do
  let hasTrailer ← pyContainsStr "トレイラー" name
  let hasKodomo ← pyContainsStr "子供" name
  let hasChairu ← pyContainsStr "チャイルド" name
  let hasDendo ← pyContainsStr "電動" name
  let features :=
    (if hasTrailer then ["🚛 トレイラー付"] else []) ++
    (if hasKodomo || hasChairu then ["👶 子供椅子付"] else []) ++
    (if hasDendo then ["⚡ 電動アシスト"] else [])
  pure (if features.isEmpty then "" else " (" ++ String.intercalate ", " features ++ ")")

/-- The Google-Maps block (lines 70-74): for a truthy `end_location` with
both coordinate keys present, subscript it (which raises on a non-dict)
and build the link. -/
def mapLinkText (location : JVal) : Except Unit String :=
  if location.truthy then do
    let hx ← pyContainsStr "x" location
    if hx then do
      let hy ← pyContainsStr "y" location
      if hy then do
        let lat ← pySubscript location "y"
        let lon ← pySubscript location "x"
        pure ("\n📍 **返却場所地図:** [Google Mapsで表示](https://www.google.com/maps/search/?api=1&query="
          ++ lat.pyStr ++ "," ++ lon.pyStr ++ ")")
      else pure ""
    else pure ""
  else pure ""

/-- The formatting part of `send_discord_notification`: builds the message
`content` string, or raises (`Except.error`) where the Python would. -/
def formatMessage (record : Record) : Except Unit String := do
  let name := record.getD "name" (.jstr "不明")
  let start := format_datetime (record.get "scheduled_start")
  let end_val := record.get "end_date"
  let endv := format_datetime end_val
  let port := if (record.get "port").truthy then record.get "port" else .jstr "不明"
  let is_return := end_val.truthy && !(end_val.eqStr "-")
  let status_title :=
    if is_return then "✅ **自転車が返却されました**" else "🚲 **レンタルが開始されました**"
  let feature_text ← featureText name
  let map_link ← mapLinkText (record.get "end_location")
  pure (status_title ++ "\n--------------------------------\n**自転車:** "
    ++ name.pyStr ++ feature_text ++ "\n**ポート:** " ++ port.pyStr
    ++ "\n**開始:** " ++ start.pyStr ++ "\n**返却:** " ++ endv.pyStr
    ++ map_link ++ "\n--------------------------------")

/-- Values Python's `needle in hay` accepts without raising: strings, lists
and dicts.  `None`, booleans and numbers raise `TypeError`. -/
def memberTestable : JVal → Bool
  | .jstr _ => true
  | .jarr _ => true
  | .jobj _ => true
  | _ => false

/-- `end_location` values the map-link block survives: falsy values (the
block is skipped), dicts, and strings or lists in which the two coordinate
membership tests do not both succeed (so the raising subscript is never
reached).  Truthy numbers and `True` raise at the membership test; strings
and lists passing both tests raise at the subscript. -/
def locationSafe (v : JVal) : Bool :=
  !v.truthy ||
  (match v with
   | .jobj _ => true
   | .jstr s => !(substrB "x" s && substrB "y" s)
   | .jarr xs =>
     !((xs.any fun u => match u with | .jstr t => t == "x" | _ => false) &&
       (xs.any fun u => match u with | .jstr t => t == "y" | _ => false))
   | _ => false)

/-- Whether a fallible computation succeeded. -/
def isOkE {α : Type} : Except Unit α → Bool
  | .ok _ => true
  | .error _ => false

/-! ### The per-run engine (`main`, lines 98-172)

`fetch_history` (lines 25-34) returns `json.loads(...)` when some attempt
succeeds, and the plain empty list `[]` after three failed attempts.  A
run's inputs are therefore: the prior identity set (`last_ids`, a
`Finset String`), one `FetchOutcome` per configured bike in order, whether
the webhook URL is a value `urllib.request.Request` accepts
(`webhookOk` — a bad one raises *outside* the `try` in
`send_discord_notification`), and a delivery oracle saying whether each
`urlopen` POST succeeds (its failure is caught and only logged).
-/

/-- What `fetch_history` returns for one bike: `fail` is "all three
attempts raised" (the function returns `[]`), `success p` is
`json.loads(response.read().decode())` for whichever attempt succeeded. -/
inductive FetchOutcome where
  | fail : FetchOutcome
  | success : JVal → FetchOutcome

/-- The Python value `history` that `main` receives for one bike. -/
def FetchOutcome.value : FetchOutcome → JVal
  | .fail => .jarr []
  | .success p => p

/-- The loop state of `main`'s entity scan: `current_ids`, `new_records`,
`fetch_errors` (lines 124-126). -/
structure ScanState where
  currentIds : Finset String
  newRecords : List Record
  fetchErrors : Nat

/-- The initial scan state: empty set, empty list, zero errors. -/
def initScan : ScanState := ⟨∅, [], 0⟩

/-- Lines 136-145 for one dict of `history`: its key is computed and added
to `current_ids`, and the record is appended to `new_records` when the key
is unseen and the prior set is non-empty. -/
def stepState (lastIds : Finset String) (st : ScanState) (fields : Record) :
    ScanState :=
  if recordKey fields ∉ lastIds ∧ lastIds ≠ ∅ then
    { st with currentIds := insert (recordKey fields) st.currentIds,
              newRecords := st.newRecords ++ [fields] }
  else
    { st with currentIds := insert (recordKey fields) st.currentIds }

/-- One element of `history`: a dict is processed by `stepState`, a
non-dict raises (`record.get` on it is an `AttributeError`). -/
def scanRecord (lastIds : Finset String) (st : ScanState) (item : JVal) :
    Except Unit ScanState :=
  match item with
  | .jobj fields => .ok (stepState lastIds st fields)
  | _ => .error ()

/-- The inner `for record in history` loop. -/
def scanList (lastIds : Finset String) (st : ScanState) :
    List JVal → Except Unit ScanState
  | [] => .ok st
  | item :: rest =>
    match scanRecord lastIds st item with
    | .error e => .error e
    | .ok st1 => scanList lastIds st1 rest

/-- Lines 129-145 for one bike.  The guard on line 130 is
`if not history and history != []`: false for the failure value `[]`
itself, true only for a falsy non-list payload; a truthy non-list payload
raises when iterated (or when its elements are `.get`-ed). -/
def scanEntity (lastIds : Finset String) (st : ScanState)
    (outcome : FetchOutcome) : Except Unit ScanState :=
  let history := outcome.value
  if !history.truthy && !history.isEmptyList then
    .ok { st with fetchErrors := st.fetchErrors + 1 }
  else
    match history with
    | .jarr items => scanList lastIds st items
    | _ => .error ()

/-- The outer `for bike_id in BIKE_IDS` loop (lines 128-145). -/
def scanAll (lastIds : Finset String) (st : ScanState) :
    List FetchOutcome → Except Unit ScanState
  | [] => .ok st
  | outcome :: rest =>
    match scanEntity lastIds st outcome with
    | .error e => .error e
    | .ok st1 => scanAll lastIds st1 rest

/-- The result of the notification loop (lines 153-157): which records had
a POST attempted, paired with that POST's outcome, and whether an
exception escaped `send_discord_notification` (formatting raised, or the
webhook URL was rejected by `Request`), aborting the run. -/
structure DispatchResult where
  attempted : List (Record × Bool)
  aborted : Bool

/-- The `for record in new_records` loop: format (may raise), construct the
`Request` (raises when the webhook URL is bad), POST (failure caught and
logged, loop continues). -/
def dispatch (webhookOk : Bool) (deliver : Record → Bool) :
    List Record → DispatchResult
  | [] => ⟨[], false⟩
  | r :: rest =>
    match formatMessage r with
    | .error _ => ⟨[], true⟩
    | .ok _ =>
      if webhookOk then
        let tail := dispatch webhookOk deliver rest
        ⟨(r, deliver r) :: tail.attempted, tail.aborted⟩
      else ⟨[], true⟩

/-- The observable outcome of one run of `main`'s `try` body. -/
structure RunResult where
  attempted : List (Record × Bool)
  persisted : Option (Finset String)
  fetchErrors : Nat
  currentIds : Finset String
  newRecords : List Record
  aborted : Bool

/-- Lines 123-172: scan all bikes; on the data-loss guard
(`not current_ids and fetch_errors > 0`, line 149) skip both notification
and persist; otherwise notify each new record and, unless an exception
aborted the dispatch, write `last_ids | current_ids` to the state file.
Any exception reaching the top-level `except` ends the run with nothing
persisted. -/
def runMain (lastIds : Finset String) (outcomes : List FetchOutcome)
    (webhookOk : Bool) (deliver : Record → Bool) : RunResult :=
  match scanAll lastIds initScan outcomes with
  | .error _ => ⟨[], none, 0, ∅, [], true⟩
  | .ok st =>
    if st.currentIds = ∅ ∧ 0 < st.fetchErrors then
      ⟨[], none, st.fetchErrors, st.currentIds, st.newRecords, false⟩
    else
      let disp := dispatch webhookOk deliver st.newRecords
      if disp.aborted then
        ⟨disp.attempted, none, st.fetchErrors, st.currentIds, st.newRecords, true⟩
      else
        ⟨disp.attempted, some (lastIds ∪ st.currentIds), st.fetchErrors,
          st.currentIds, st.newRecords, false⟩

/-- The state file's content after the run: the written set when the run
wrote one, the prior content otherwise. -/
def persistedAfter (lastIds : Finset String) (res : RunResult) : Finset String :=
  res.persisted.getD lastIds

/-- The dict elements of a payload list, in order (on the non-raising paths
every element is a dict). -/
def itemRecs (items : List JVal) : List Record :=
  items.filterMap fun v => match v with | .jobj fs => some fs | _ => none

/-- The records `main` iterates over for one bike: the dict elements of a
list payload; a failed fetch and a non-list payload contribute none. -/
def FetchOutcome.records : FetchOutcome → List Record
  | .fail => []
  | .success (.jarr items) => itemRecs items
  | .success _ => []

/-- All records fetched in the run, in iteration order. -/
def fetchedRecords (outcomes : List FetchOutcome) : List Record :=
  outcomes.flatMap FetchOutcome.records

/-- The records of a run that `main` judges new: none on a cold start
(empty prior set), otherwise those whose key is not already seen. -/
def freshRecs (lastIds : Finset String) (rs : List Record) : List Record :=
  if lastIds = ∅ then [] else rs.filter fun r => decide (recordKey r ∉ lastIds)

/-- The contribution of one bike's fetch to `fetch_errors`: 1 exactly when
the guard on line 130 fires (a falsy, non-`[]` payload), else 0.  In
particular a failed fetch — the value `[]` — contributes 0. -/
def FetchOutcome.errContrib (o : FetchOutcome) : Nat :=
  if !o.value.truthy && !o.value.isEmptyList then 1 else 0

/-- Total `fetch_errors` accumulated over a run. -/
def errCount (outcomes : List FetchOutcome) : Nat :=
  (outcomes.map FetchOutcome.errContrib).sum

/-! ### Characterization of the scan -/

theorem stepState_currentIds (last : Finset String) (st : ScanState) (fields : Record) :
    (stepState last st fields).currentIds = insert (recordKey fields) st.currentIds := by
  unfold stepState
  split <;> rfl

theorem stepState_newRecords (last : Finset String) (st : ScanState) (fields : Record) :
    (stepState last st fields).newRecords =
      st.newRecords ++ (if recordKey fields ∉ last ∧ last ≠ ∅ then [fields] else []) := by
  unfold stepState
  split <;> simp

theorem stepState_fetchErrors (last : Finset String) (st : ScanState) (fields : Record) :
    (stepState last st fields).fetchErrors = st.fetchErrors := by
  unfold stepState
  split <;> rfl

theorem freshRecs_nil (last : Finset String) : freshRecs last [] = [] := by
  simp [freshRecs]

theorem freshRecs_cons (last : Finset String) (r : Record) (rs : List Record) :
    freshRecs last (r :: rs) =
      (if recordKey r ∉ last ∧ last ≠ ∅ then [r] else []) ++ freshRecs last rs := by
  unfold freshRecs
  by_cases h : last = ∅
  · simp [h]
  · by_cases hk : recordKey r ∉ last
    · simp [h, hk, List.filter_cons]
    · simp [h, hk, List.filter_cons]

theorem freshRecs_append (last : Finset String) (l1 l2 : List Record) :
    freshRecs last (l1 ++ l2) = freshRecs last l1 ++ freshRecs last l2 := by
  unfold freshRecs
  by_cases h : last = ∅ <;> simp [h, List.filter_append]

theorem itemRecs_cons_jobj (fields : Record) (rest : List JVal) :
    itemRecs (.jobj fields :: rest) = fields :: itemRecs rest := by
  simp [itemRecs]

theorem scanList_ok (items : List JVal) :
    ∀ (last : Finset String) (st st' : ScanState), scanList last st items = .ok st' →
      st'.currentIds = st.currentIds ∪ ((itemRecs items).map recordKey).toFinset ∧
      st'.newRecords = st.newRecords ++ freshRecs last (itemRecs items) ∧
      st'.fetchErrors = st.fetchErrors := by
  induction items with
  | nil =>
    intro last st st' h
    simp only [scanList, Except.ok.injEq] at h
    subst h
    simp [itemRecs, freshRecs_nil]
  | cons item rest ih =>
    intro last st st' h
    cases item with
    | jobj fields =>
      simp only [scanList, scanRecord] at h
      obtain ⟨h1, h2, h3⟩ := ih last _ st' h
      refine ⟨?_, ?_, ?_⟩
      · rw [h1, stepState_currentIds, itemRecs_cons_jobj]
        simp [Finset.insert_union, Finset.union_insert]
      · rw [h2, stepState_newRecords, itemRecs_cons_jobj, freshRecs_cons,
          List.append_assoc]
      · rw [h3, stepState_fetchErrors]
    | jnull => simp [scanList, scanRecord] at h
    | jbool b => simp [scanList, scanRecord] at h
    | jnum n => simp [scanList, scanRecord] at h
    | jstr s => simp [scanList, scanRecord] at h
    | jarr xs => simp [scanList, scanRecord] at h

theorem scanEntity_ok (o : FetchOutcome) (last : Finset String) (st st1 : ScanState)
    (h : scanEntity last st o = .ok st1) :
    st1.currentIds = st.currentIds ∪ (o.records.map recordKey).toFinset ∧
    st1.newRecords = st.newRecords ++ freshRecs last o.records ∧
    st1.fetchErrors = st.fetchErrors + o.errContrib := by
  cases o with
  | fail =>
    simp only [scanEntity, FetchOutcome.value, JVal.truthy, JVal.isEmptyList,
      List.isEmpty_nil, scanList, Bool.not_true, Bool.not_false, Bool.and_false,
      Bool.false_and, if_neg, Bool.false_eq_true, not_false_iff,
      Except.ok.injEq] at h
    subst h
    simp [FetchOutcome.records, FetchOutcome.errContrib, FetchOutcome.value,
      JVal.truthy, JVal.isEmptyList, freshRecs_nil, itemRecs]
  | success p =>
    cases p with
    | jnull =>
      simp only [scanEntity, FetchOutcome.value, JVal.truthy, JVal.isEmptyList,
        Bool.not_false, Bool.and_self, if_pos, Except.ok.injEq] at h
      subst h
      simp [FetchOutcome.records, FetchOutcome.errContrib, FetchOutcome.value,
        JVal.truthy, JVal.isEmptyList, freshRecs_nil]
    | jbool b =>
      cases b with
      | true => simp [scanEntity, FetchOutcome.value, JVal.truthy, JVal.isEmptyList] at h
      | false =>
        simp only [scanEntity, FetchOutcome.value, JVal.truthy, JVal.isEmptyList,
          Bool.not_false, Bool.and_self, if_pos, Except.ok.injEq] at h
        subst h
        simp [FetchOutcome.records, FetchOutcome.errContrib, FetchOutcome.value,
          JVal.truthy, JVal.isEmptyList, freshRecs_nil]
    | jnum n =>
      by_cases hn : n = 0
      · subst hn
        simp only [scanEntity, FetchOutcome.value, JVal.truthy, JVal.isEmptyList,
          bne_self_eq_false, Bool.not_false, Bool.and_self, if_pos,
          Except.ok.injEq] at h
        subst h
        simp [FetchOutcome.records, FetchOutcome.errContrib, FetchOutcome.value,
          JVal.truthy, JVal.isEmptyList, freshRecs_nil]
      · simp [scanEntity, FetchOutcome.value, JVal.truthy, JVal.isEmptyList, hn] at h
    | jstr s =>
      by_cases hs : s = ""
      · subst hs
        simp only [scanEntity, FetchOutcome.value, JVal.truthy, JVal.isEmptyList,
          bne_self_eq_false, Bool.not_false, Bool.and_self, if_pos,
          Except.ok.injEq] at h
        subst h
        simp [FetchOutcome.records, FetchOutcome.errContrib, FetchOutcome.value,
          JVal.truthy, JVal.isEmptyList, freshRecs_nil]
      · simp [scanEntity, FetchOutcome.value, JVal.truthy, JVal.isEmptyList, hs] at h
    | jobj fs =>
      cases fs with
      | nil =>
        simp only [scanEntity, FetchOutcome.value, JVal.truthy, JVal.isEmptyList,
          List.isEmpty_nil, Bool.not_true, Bool.not_false, Bool.and_self, if_pos,
          Except.ok.injEq] at h
        subst h
        simp [FetchOutcome.records, FetchOutcome.errContrib, FetchOutcome.value,
          JVal.truthy, JVal.isEmptyList, freshRecs_nil]
      | cons kv rest =>
        simp [scanEntity, FetchOutcome.value, JVal.truthy, JVal.isEmptyList] at h
    | jarr xs =>
      cases xs with
      | nil =>
        simp only [scanEntity, FetchOutcome.value, JVal.truthy, JVal.isEmptyList,
          List.isEmpty_nil, Bool.not_true, Bool.not_false, Bool.and_false,
          Bool.false_eq_true, if_neg, not_false_iff, scanList,
          Except.ok.injEq] at h
        subst h
        simp [FetchOutcome.records, FetchOutcome.errContrib, FetchOutcome.value,
          JVal.truthy, JVal.isEmptyList, freshRecs_nil, itemRecs]
      | cons x rest =>
        simp only [scanEntity, FetchOutcome.value, JVal.truthy, JVal.isEmptyList,
          List.isEmpty_cons, Bool.not_true, Bool.false_and, Bool.false_eq_true,
          if_neg, not_false_iff] at h
        obtain ⟨h1, h2, h3⟩ := scanList_ok (x :: rest) last st st1 h
        refine ⟨h1, h2, ?_⟩
        rw [h3]
        simp [FetchOutcome.errContrib, FetchOutcome.value, JVal.truthy,
          JVal.isEmptyList]

theorem fetchedRecords_nil : fetchedRecords [] = [] := by
  simp [fetchedRecords]

theorem fetchedRecords_cons (o : FetchOutcome) (rest : List FetchOutcome) :
    fetchedRecords (o :: rest) = o.records ++ fetchedRecords rest := by
  simp [fetchedRecords]

theorem scanAll_ok (outs : List FetchOutcome) :
    ∀ (last : Finset String) (st st' : ScanState), scanAll last st outs = .ok st' →
      st'.currentIds = st.currentIds ∪ ((fetchedRecords outs).map recordKey).toFinset ∧
      st'.newRecords = st.newRecords ++ freshRecs last (fetchedRecords outs) ∧
      st'.fetchErrors = st.fetchErrors + errCount outs := by
  induction outs with
  | nil =>
    intro last st st' h
    simp only [scanAll, Except.ok.injEq] at h
    subst h
    simp [fetchedRecords_nil, freshRecs_nil, errCount]
  | cons o rest ih =>
    intro last st st' h
    simp only [scanAll] at h
    cases he : scanEntity last st o with
    | error e => rw [he] at h; simp at h
    | ok st1 =>
      rw [he] at h
      obtain ⟨e1, e2, e3⟩ := scanEntity_ok o last st st1 he
      obtain ⟨i1, i2, i3⟩ := ih last st1 st' h
      refine ⟨?_, ?_, ?_⟩
      · rw [i1, e1, fetchedRecords_cons]
        simp [Finset.union_assoc]
      · rw [i2, e2, fetchedRecords_cons, freshRecs_append, List.append_assoc]
      · rw [i3, e3]
        simp [errCount]
        omega

/-! ### Characterization of the dispatch loop -/

theorem dispatch_oracle_independent (w : Bool) (d d' : Record → Bool)
    (rs : List Record) :
    (dispatch w d rs).attempted.map Prod.fst = (dispatch w d' rs).attempted.map Prod.fst ∧
    (dispatch w d rs).aborted = (dispatch w d' rs).aborted := by
  induction rs with
  | nil => simp [dispatch]
  | cons r rest ih =>
    simp only [dispatch]
    cases hf : formatMessage r with
    | error e => simp
    | ok m =>
      cases w with
      | false => simp
      | true => simp [ih.1, ih.2]

theorem dispatch_sublist (w : Bool) (d : Record → Bool) (rs : List Record) :
    ((dispatch w d rs).attempted.map Prod.fst).Sublist rs := by
  induction rs with
  | nil => simp [dispatch]
  | cons r rest ih =>
    simp only [dispatch]
    cases hf : formatMessage r with
    | error e => simp
    | ok m =>
      cases w with
      | false => simp
      | true =>
        simp only [List.map_cons]
        exact List.Sublist.cons₂ r ih

theorem dispatch_all_ok (d : Record → Bool) (rs : List Record)
    (h : ∀ r ∈ rs, ∃ m, formatMessage r = .ok m) :
    dispatch true d rs = ⟨rs.map fun r => (r, d r), false⟩ := by
  induction rs with
  | nil => simp [dispatch]
  | cons r rest ih =>
    obtain ⟨m, hm⟩ := h r (List.mem_cons_self r rest)
    simp [dispatch, hm, ih fun r0 hr0 => h r0 (List.mem_cons_of_mem r hr0)]

/-! ### The claims -/

theorem scanAll_all_fail (outs : List FetchOutcome) :
    ∀ (last : Finset String) (st : ScanState), (∀ o ∈ outs, o = .fail) →
      scanAll last st outs = .ok st := by
  induction outs with
  | nil => intro last st _; rfl
  | cons o rest ih =>
    intro last st h
    have ho : o = .fail := h o (List.mem_cons_self o rest)
    subst ho
    have : scanEntity last st .fail = .ok st := rfl
    simp only [scanAll, this]
    exact ih last st fun o' ho' => h o' (List.mem_cons_of_mem _ ho')

/-- C1: in a run where every entity fetch fails (so every fetched payload is
the failure value `[]`, the current-identities set is empty and nothing is
judged new) and the prior set is non-empty, the state file afterwards still
holds exactly the prior set and no notification POST is attempted. -/
theorem persist_safeguard_total_failure (last : Finset String)
    (outs : List FetchOutcome) (w : Bool) (d : Record → Bool)
    (hfail : ∀ o ∈ outs, o = .fail) (_hne : last ≠ ∅) :
    persistedAfter last (runMain last outs w d) = last ∧
    (runMain last outs w d).attempted = [] ∧
    (runMain last outs w d).currentIds = ∅ := by
  have hscan : scanAll last initScan outs = .ok initScan :=
    scanAll_all_fail outs last initScan hfail
  simp only [runMain, hscan]
  simp [initScan, dispatch, persistedAfter]

/-- Closed instance of `persist_safeguard_total_failure`: two bikes, both
fetches fail, prior set `{"a"}`. -/
theorem persist_safeguard_total_failure_witness :
    (∀ o ∈ ([.fail, .fail] : List FetchOutcome), o = FetchOutcome.fail) ∧
    ({"a"} : Finset String) ≠ ∅ ∧
    (persistedAfter {"a"} (runMain {"a"} [.fail, .fail] true (fun _ => true)) = {"a"} ∧
     (runMain {"a"} [.fail, .fail] true (fun _ => true)).attempted = [] ∧
     (runMain {"a"} [.fail, .fail] true (fun _ => true)).currentIds = ∅) := by
  refine ⟨?_, by decide, ?_⟩
  · intro o ho
    simp only [List.mem_cons, List.not_mem_nil, or_false] at ho
    rcases ho with h | h <;> exact h
  · exact persist_safeguard_total_failure {"a"} [.fail, .fail] true (fun _ => true)
      (by
        intro o ho
        simp only [List.mem_cons, List.not_mem_nil, or_false] at ho
        rcases ho with h | h <;> exact h)
      (by decide)

/-- C2: the code does NOT increment `fetch_errors` for a fetch that exhausts
its attempts.  `fetch_history` returns `[]` then, and line 130's test
`not history and history != []` is false for `[]`, so a run consisting of
one failed fetch ends with `fetch_errors = 0` (the claim and the code's own
`# Fetch failed` comment say it should be 1); the entity does contribute no
identities, and `errContrib` of a failure is 0 by computation. -/
theorem fetch_failure_not_counted :
    (runMain {"seen"} [.fail] true (fun _ => true)).fetchErrors = 0 ∧
    (runMain {"seen"} [.fail] true (fun _ => true)).currentIds = ∅ ∧
    FetchOutcome.errContrib .fail = 0 := by
  exact ⟨rfl, rfl, rfl⟩

/-- C7: records agreeing on the `bike_id`, `scheduled_start` and `end_date`
fields get the same identity key, whatever their other fields hold. -/
theorem identity_deterministic (r1 r2 : Record)
    (hb : r1.get "bike_id" = r2.get "bike_id")
    (hs : r1.get "scheduled_start" = r2.get "scheduled_start")
    (he : r1.get "end_date" = r2.get "end_date") :
    recordKey r1 = recordKey r2 := by
  unfold recordKey
  rw [hb, hs, he]

/-- Closed instance of `identity_deterministic`: two records equal on the
three key fields and different everywhere else. -/
theorem identity_deterministic_witness :
    (Record.get [("bike_id", JVal.jnum 3592), ("scheduled_start", JVal.jstr "2024-01-01T10:00:00.000Z"), ("name", JVal.jstr "A")] "bike_id"
      = Record.get [("bike_id", JVal.jnum 3592), ("scheduled_start", JVal.jstr "2024-01-01T10:00:00.000Z"), ("name", JVal.jstr "B"), ("port", JVal.jstr "P1")] "bike_id") ∧
    recordKey [("bike_id", JVal.jnum 3592), ("scheduled_start", JVal.jstr "2024-01-01T10:00:00.000Z"), ("name", JVal.jstr "A")]
      = recordKey [("bike_id", JVal.jnum 3592), ("scheduled_start", JVal.jstr "2024-01-01T10:00:00.000Z"), ("name", JVal.jstr "B"), ("port", JVal.jstr "P1")] := by
  exact ⟨rfl, identity_deterministic _ _ rfl rfl rfl⟩

/-- C6: whenever a run writes the state file, it writes the union of the
prior set and the identities observed this run — a superset of the prior
set.  (`runMain` performs at most one write per run by construction: its
`persisted` field is a single `Option`.) -/
theorem persisted_set_monotonic (last : Finset String) (outs : List FetchOutcome)
    (w : Bool) (d : Record → Bool) (s : Finset String)
    (h : (runMain last outs w d).persisted = some s) :
    s = last ∪ (runMain last outs w d).currentIds ∧ last ⊆ s := by
  cases hscan : scanAll last initScan outs with
  | error e => simp [runMain, hscan] at h
  | ok st =>
    simp only [runMain, hscan] at h ⊢
    by_cases hg : st.currentIds = ∅ ∧ 0 < st.fetchErrors
    · simp [hg] at h
    · simp only [if_neg hg] at h ⊢
      by_cases ha : (dispatch w d st.newRecords).aborted = true
      · simp [ha] at h
      · simp only [ha, Bool.false_eq_true, if_neg, if_false] at h ⊢
        have hs : s = last ∪ st.currentIds := by
          cases h
          rfl
        exact ⟨hs, hs ▸ Finset.subset_union_left⟩

/-- Closed instance of `persisted_set_monotonic`: an empty run over prior
set `{"a"}` persists `{"a"} ∪ ∅`. -/
theorem persisted_set_monotonic_witness :
    (runMain {"a"} [] true (fun _ => true)).persisted = some ({"a"} ∪ ∅) ∧
    (({"a"} ∪ ∅ : Finset String) = {"a"} ∪ (runMain {"a"} [] true (fun _ => true)).currentIds ∧
     ({"a"} : Finset String) ⊆ {"a"} ∪ ∅) := by
  exact ⟨rfl, persisted_set_monotonic {"a"} [] true (fun _ => true) ({"a"} ∪ ∅) rfl⟩

/-- C10: anything on the new-records list of a run has an identity key
outside the prior set loaded at the start of the run. -/
theorem new_records_unseen (last : Finset String) (outs : List FetchOutcome)
    (w : Bool) (d : Record → Bool) (r : Record)
    (h : r ∈ (runMain last outs w d).newRecords) :
    recordKey r ∉ last := by
  cases hscan : scanAll last initScan outs with
  | error e => simp [runMain, hscan] at h
  | ok st =>
    obtain ⟨-, h2, -⟩ := scanAll_ok outs last initScan st hscan
    have hnr : (runMain last outs w d).newRecords = st.newRecords := by
      simp only [runMain, hscan]
      by_cases hg : st.currentIds = ∅ ∧ 0 < st.fetchErrors
      · simp [hg]
      · simp only [if_neg hg]
        by_cases ha : (dispatch w d st.newRecords).aborted = true <;> simp [ha]
    rw [hnr, h2] at h
    simp only [initScan, List.nil_append] at h
    unfold freshRecs at h
    by_cases he : last = ∅
    · simp [he] at h
    · simp only [if_neg he] at h
      have := List.of_mem_filter h
      simpa using this

/-- Closed instance of `new_records_unseen`: one fetched record, prior set
`{"seen"}`. -/
theorem new_records_unseen_witness :
    ([("bike_id", JVal.jnum 8)] : Record) ∈
      (runMain {"seen"} [.success (.jarr [.jobj [("bike_id", JVal.jnum 8)]])]
        true (fun _ => true)).newRecords ∧
    recordKey [("bike_id", JVal.jnum 8)] ∉ ({"seen"} : Finset String) := by
  have hm : (runMain {"seen"} [.success (.jarr [.jobj [("bike_id", JVal.jnum 8)]])]
      true (fun _ => true)).newRecords = [[("bike_id", JVal.jnum 8)]] := rfl
  have hmem : ([("bike_id", JVal.jnum 8)] : Record) ∈
      (runMain {"seen"} [.success (.jarr [.jobj [("bike_id", JVal.jnum 8)]])]
        true (fun _ => true)).newRecords := by
    rw [hm]
    exact List.mem_singleton_self _
  exact ⟨hmem, new_records_unseen _ _ _ _ _ hmem⟩

/-- C3 counterexample: with non-empty prior set `{"seen"}`, a fetch
returning the same record twice in one run dispatches two notifications
carrying the same identity key — delivery is not duplicate-free within a
run. -/
theorem duplicate_identity_double_notification :
    ((runMain {"seen"}
        [.success (.jarr [.jobj [("bike_id", JVal.jnum 1)], .jobj [("bike_id", JVal.jnum 1)]])]
        true (fun _ => true)).attempted.map fun a => recordKey a.1) =
      ["1_None_None", "1_None_None"] := by
  rfl

/-- C3 amended: when the identity keys of the records fetched in a run are
pairwise distinct, at most one notification is dispatched per identity
(the dispatched keys are duplicate-free); within-run duplicates are the
only exception, each copy being notified. -/
theorem at_most_one_notification_per_identity (last : Finset String)
    (outs : List FetchOutcome) (w : Bool) (d : Record → Bool)
    (h : ((fetchedRecords outs).map recordKey).Nodup) :
    ((runMain last outs w d).attempted.map fun a => recordKey a.1).Nodup := by
  cases hscan : scanAll last initScan outs with
  | error e => simp [runMain, hscan]
  | ok st =>
    obtain ⟨-, h2, -⟩ := scanAll_ok outs last initScan st hscan
    have hsub1 : ((dispatch w d st.newRecords).attempted.map Prod.fst).Sublist st.newRecords :=
      dispatch_sublist w d st.newRecords
    have hsub2 : st.newRecords.Sublist (fetchedRecords outs) := by
      rw [h2]
      simp only [initScan, List.nil_append]
      unfold freshRecs
      by_cases he : last = ∅
      · simp [he]
      · simp only [if_neg he]
        exact List.filter_sublist _
    have main : (((dispatch w d st.newRecords).attempted.map Prod.fst).map recordKey).Nodup :=
      List.Nodup.sublist (List.Sublist.map recordKey (hsub1.trans hsub2)) h
    have main' : ((dispatch w d st.newRecords).attempted.map fun a => recordKey a.1).Nodup := by
      simpa [List.map_map, Function.comp] using main
    simp only [runMain, hscan]
    by_cases hg : st.currentIds = ∅ ∧ 0 < st.fetchErrors
    · simp [hg]
    · simp only [if_neg hg]
      by_cases ha : (dispatch w d st.newRecords).aborted = true <;> simp [ha, main']

/-- Closed instance of `at_most_one_notification_per_identity`. -/
theorem at_most_one_notification_per_identity_witness :
    ((fetchedRecords [.success (.jarr [.jobj [("bike_id", JVal.jnum 8)]])]).map recordKey).Nodup ∧
    ((runMain {"seen"} [.success (.jarr [.jobj [("bike_id", JVal.jnum 8)]])]
        true (fun _ => true)).attempted.map fun a => recordKey a.1).Nodup := by
  refine ⟨?_, at_most_one_notification_per_identity {"seen"} _ true (fun _ => true) ?_⟩ <;>
    · rw [show (fetchedRecords [.success (.jarr [.jobj [("bike_id", JVal.jnum 8)]])]).map recordKey
          = ["8_None_None"] from rfl]
      exact List.nodup_singleton _

/-- C4: a run starting from an empty prior set attempts no notification and
persists exactly the identities of the records fetched that run (given the
scan completes with zero fetch errors). -/
theorem cold_start_silent (outs : List FetchOutcome) (w : Bool)
    (d : Record → Bool) (st : ScanState)
    (h : scanAll ∅ initScan outs = .ok st) (hz : st.fetchErrors = 0) :
    (runMain ∅ outs w d).attempted = [] ∧
    (runMain ∅ outs w d).persisted = some ((fetchedRecords outs).map recordKey).toFinset := by
  obtain ⟨h1, h2, h3⟩ := scanAll_ok outs ∅ initScan st h
  simp only [initScan, Finset.empty_union] at h1
  simp only [initScan, List.nil_append, freshRecs, if_pos] at h2
  have hg : ¬(st.currentIds = ∅ ∧ 0 < st.fetchErrors) := by
    rw [hz]
    simp
  simp only [runMain, h, if_neg hg, h2, dispatch]
  simp [h1]

/-- Closed instance of `cold_start_silent`: one bike returning one record on
a cold start. -/
theorem cold_start_silent_witness :
    scanAll ∅ initScan [.success (.jarr [.jobj [("bike_id", JVal.jnum 8)]])] =
      .ok ⟨{"8_None_None"}, [], 0⟩ ∧
    (⟨{"8_None_None"}, [], 0⟩ : ScanState).fetchErrors = 0 ∧
    ((runMain ∅ [.success (.jarr [.jobj [("bike_id", JVal.jnum 8)]])] true (fun _ => true)).attempted = [] ∧
     (runMain ∅ [.success (.jarr [.jobj [("bike_id", JVal.jnum 8)]])] true (fun _ => true)).persisted =
       some ((fetchedRecords [.success (.jarr [.jobj [("bike_id", JVal.jnum 8)]])]).map recordKey).toFinset) := by
  exact ⟨rfl, rfl, cold_start_silent _ true (fun _ => true) ⟨{"8_None_None"}, [], 0⟩ rfl rfl⟩

/-- C8: the run's outcome is independent of notification-delivery success:
whatever POSTs fail, the same records are attempted in the same order, the
same state is persisted, and the run aborts in the same cases — a delivery
failure is only logged and the dispatcher moves on. -/
theorem notification_failure_isolated (last : Finset String)
    (outs : List FetchOutcome) (w : Bool) (d d' : Record → Bool) :
    (runMain last outs w d).attempted.map Prod.fst =
      (runMain last outs w d').attempted.map Prod.fst ∧
    (runMain last outs w d).persisted = (runMain last outs w d').persisted ∧
    (runMain last outs w d).aborted = (runMain last outs w d').aborted := by
  cases hscan : scanAll last initScan outs with
  | error e => simp [runMain, hscan]
  | ok st =>
    obtain ⟨hmap, hab⟩ := dispatch_oracle_independent w d d' st.newRecords
    simp only [runMain, hscan]
    by_cases hg : st.currentIds = ∅ ∧ 0 < st.fetchErrors
    · simp [hg]
    · simp only [if_neg hg]
      by_cases ha : (dispatch w d st.newRecords).aborted = true
      · have ha' : (dispatch w d' st.newRecords).aborted = true := hab ▸ ha
        simp [ha, ha', hmap]
      · have ha' : ¬(dispatch w d' st.newRecords).aborted = true := by
          rw [← hab]
          exact ha
        simp [ha, ha', hmap, hab]

/-- C5 counterexample: prior set S = `{"7_None_None"}` and a fetch whose
identity set is exactly S ∪ \x7b"8_None_None"\x7d, yet two notifications are
attempted, because the new identity arrives on two fetched records. -/
theorem incremental_detection_duplicate_counterexample :
    (runMain {"7_None_None"}
        [.success (.jarr [.jobj [("bike_id", JVal.jnum 7)], .jobj [("bike_id", JVal.jnum 8)],
          .jobj [("bike_id", JVal.jnum 8)]])]
        true (fun _ => true)).currentIds = {"7_None_None"} ∪ {"8_None_None"} ∧
    "8_None_None" ∉ ({"7_None_None"} : Finset String) ∧
    (runMain {"7_None_None"}
        [.success (.jarr [.jobj [("bike_id", JVal.jnum 7)], .jobj [("bike_id", JVal.jnum 8)],
          .jobj [("bike_id", JVal.jnum 8)]])]
        true (fun _ => true)).attempted.length = 2 := by
  exact ⟨by decide, by decide, rfl⟩

/-- C5 amended: with a non-empty prior set, a run whose scan completes with
identity set S ∪ \x7bx\x7d for a single new identity x carried by exactly one
fetched record r attempts exactly the notification for r, whose key is x,
and persists S ∪ \x7bx\x7d (granted r's message formats without raising and the
webhook URL is acceptable, otherwise the dispatch aborts the run). -/
theorem incremental_detection (last : Finset String) (outs : List FetchOutcome)
    (d : Record → Bool) (st : ScanState) (x : String) (r : Record)
    (hscan : scanAll last initScan outs = .ok st)
    (hids : st.currentIds = last ∪ {x}) (_hx : x ∉ last)
    (hone : (fetchedRecords outs).filter (fun r0 => decide (recordKey r0 ∉ last)) = [r])
    (hne : last ≠ ∅)
    (hfmt : ∃ m, formatMessage r = .ok m) :
    (runMain last outs true d).attempted.map Prod.fst = [r] ∧
    recordKey r = x ∧
    (runMain last outs true d).persisted = some (last ∪ {x}) := by
  obtain ⟨h1, h2, -⟩ := scanAll_ok outs last initScan st hscan
  simp only [initScan, Finset.empty_union, List.nil_append] at h1 h2
  have hnew : st.newRecords = [r] := by
    rw [h2]
    unfold freshRecs
    rw [if_neg hne]
    exact hone
  have hgne : st.currentIds ≠ ∅ := by
    rw [hids]
    intro hcontra
    have : x ∈ last ∪ {x} := Finset.mem_union_right _ (Finset.mem_singleton_self x)
    rw [hcontra] at this
    exact absurd this (Finset.not_mem_empty x)
  have hg : ¬(st.currentIds = ∅ ∧ 0 < st.fetchErrors) := fun hc => hgne hc.1
  have hdisp : dispatch true d [r] = ⟨[(r, d r)], false⟩ :=
    dispatch_all_ok d [r] (by
      intro r0 hr0
      rw [List.mem_singleton] at hr0
      subst hr0
      exact hfmt)
  have hkey : recordKey r = x := by
    have hrmem : r ∈ (fetchedRecords outs).filter (fun r0 => decide (recordKey r0 ∉ last)) := by
      rw [hone]
      exact List.mem_singleton_self r
    have hrf : r ∈ fetchedRecords outs := List.mem_of_mem_filter hrmem
    have hrk : recordKey r ∉ last := by simpa using List.of_mem_filter hrmem
    have hkmem : recordKey r ∈ st.currentIds := by
      rw [h1]
      exact List.mem_toFinset.mpr (List.mem_map_of_mem recordKey hrf)
    rw [hids] at hkmem
    rcases Finset.mem_union.mp hkmem with hcase | hcase
    · exact absurd hcase hrk
    · exact Finset.mem_singleton.mp hcase
  simp only [runMain, hscan, if_neg hg, hnew, hdisp]
  refine ⟨by simp, hkey, ?_⟩
  simp only [hids, ← Finset.union_assoc, Finset.union_self]
  simp

/-- Closed instance of `incremental_detection`: prior set `{"7_None_None"}`,
one already-seen record and one new record fetched. -/
theorem incremental_detection_witness :
    scanAll {"7_None_None"} initScan
        [.success (.jarr [.jobj [("bike_id", JVal.jnum 7)], .jobj [("bike_id", JVal.jnum 8)]])] =
      .ok ⟨insert "8_None_None" {"7_None_None"}, [[("bike_id", JVal.jnum 8)]], 0⟩ ∧
    (⟨insert "8_None_None" {"7_None_None"}, [[("bike_id", JVal.jnum 8)]], 0⟩ : ScanState).currentIds =
      {"7_None_None"} ∪ {"8_None_None"} ∧
    "8_None_None" ∉ ({"7_None_None"} : Finset String) ∧
    ((runMain {"7_None_None"}
        [.success (.jarr [.jobj [("bike_id", JVal.jnum 7)], .jobj [("bike_id", JVal.jnum 8)]])]
        true (fun _ => true)).attempted.map Prod.fst = [[("bike_id", JVal.jnum 8)]] ∧
     recordKey [("bike_id", JVal.jnum 8)] = "8_None_None" ∧
     (runMain {"7_None_None"}
        [.success (.jarr [.jobj [("bike_id", JVal.jnum 7)], .jobj [("bike_id", JVal.jnum 8)]])]
        true (fun _ => true)).persisted = some ({"7_None_None"} ∪ {"8_None_None"})) := by
  refine ⟨rfl, by decide, by decide, ?_⟩
  exact incremental_detection {"7_None_None"} _ (fun _ => true)
    ⟨insert "8_None_None" {"7_None_None"}, [[("bike_id", JVal.jnum 8)]], 0⟩
    "8_None_None" [("bike_id", JVal.jnum 8)] rfl (by decide) (by decide) rfl (by decide)
    ⟨_, rfl⟩

/-! ### C9: formatting is not total -/

theorem ok_bind {α β : Type} (a : α) (f : α → Except Unit β) :
    ((Except.ok a : Except Unit α) >>= f) = f a := rfl

theorem exists_ok_of_isOk {α : Type} {e : Except Unit α} (h : isOkE e = true) :
    ∃ a, e = .ok a := by
  cases e with
  | ok a => exact ⟨a, rfl⟩
  | error u => simp [isOkE] at h

theorem foldl_lookup_ne_none (k : String) (fs : List (String × JVal)) :
    ∀ acc : Option JVal, (acc ≠ none ∨ (fs.any fun kv => kv.1 == k) = true) →
      fs.foldl (fun acc kv => if kv.1 = k then some kv.2 else acc) acc ≠ none := by
  induction fs with
  | nil =>
    intro acc h
    rcases h with h | h
    · simpa using h
    · simp at h
  | cons kv rest ih =>
    intro acc h
    simp only [List.foldl_cons]
    apply ih
    by_cases hk : kv.1 = k
    · left
      simp [hk]
    · simp only [if_neg hk]
      rcases h with h | h
      · exact Or.inl h
      · right
        simp only [List.any_cons, Bool.or_eq_true] at h
        rcases h with h | h
        · exact absurd (by simpa using h) hk
        · exact h

theorem lookup_of_any (k : String) (fs : List (String × JVal))
    (h : (fs.any fun kv => kv.1 == k) = true) :
    ∃ v, Record.lookupLast fs k = some v := by
  have := foldl_lookup_ne_none k fs none (Or.inr h)
  exact Option.ne_none_iff_exists'.mp this

theorem featureText_ok (name : JVal) (h : memberTestable name = true) :
    ∃ s, featureText name = .ok s := by
  cases name with
  | jnull => simp [memberTestable] at h
  | jbool b => simp [memberTestable] at h
  | jnum n => simp [memberTestable] at h
  | jstr s => exact ⟨_, rfl⟩
  | jarr xs => exact ⟨_, rfl⟩
  | jobj fs => exact ⟨_, rfl⟩

theorem mapLinkText_ok (loc : JVal) (h : locationSafe loc = true) :
    ∃ s, mapLinkText loc = .ok s := by
  cases loc with
  | jnull => exact ⟨_, rfl⟩
  | jbool b =>
    cases b with
    | false => exact ⟨_, rfl⟩
    | true => simp [locationSafe, JVal.truthy] at h
  | jnum n =>
    by_cases hn : n = 0
    · subst hn
      exact ⟨_, rfl⟩
    · simp [locationSafe, JVal.truthy, hn] at h
  | jstr s =>
    by_cases hs : s = ""
    · subst hs
      exact ⟨_, rfl⟩
    · have ht : JVal.truthy (.jstr s) = true := by simp [JVal.truthy, hs]
      simp only [mapLinkText, ht, if_true, pyContainsStr, ok_bind]
      cases hx : substrB "x" s with
      | false => exact ⟨"", rfl⟩
      | true =>
        cases hy : substrB "y" s with
        | false => exact ⟨"", rfl⟩
        | true => simp [locationSafe, JVal.truthy, hs, hx, hy] at h
  | jarr xs =>
    cases xs with
    | nil => exact ⟨_, rfl⟩
    | cons u us =>
      simp only [mapLinkText, JVal.truthy, List.isEmpty_cons, Bool.not_false, if_true,
        pyContainsStr, ok_bind]
      cases hx : ((u :: us).any fun v => match v with | .jstr t => t == "x" | _ => false) with
      | false => exact ⟨"", rfl⟩
      | true =>
        cases hy : ((u :: us).any fun v => match v with | .jstr t => t == "y" | _ => false) with
        | false => exact ⟨"", rfl⟩
        | true =>
          simp only [locationSafe, JVal.truthy, List.isEmpty_cons, Bool.not_false,
            Bool.not_true, Bool.false_or, hx, hy, Bool.and_self] at h
          exact absurd h (by decide)
  | jobj fs =>
    cases fs with
    | nil => exact ⟨_, rfl⟩
    | cons kv rest =>
      simp only [mapLinkText, JVal.truthy, List.isEmpty_cons, Bool.not_false, if_true,
        pyContainsStr, ok_bind]
      cases hx : ((kv :: rest).any fun e => e.1 == "x") with
      | false => exact ⟨"", rfl⟩
      | true =>
        cases hy : ((kv :: rest).any fun e => e.1 == "y") with
        | false => exact ⟨"", rfl⟩
        | true =>
          obtain ⟨vy, hvy⟩ := lookup_of_any "y" (kv :: rest) hy
          obtain ⟨vx, hvx⟩ := lookup_of_any "x" (kv :: rest) hx
          refine ⟨"\n📍 **返却場所地図:** [Google Mapsで表示](https://www.google.com/maps/search/?api=1&query="
            ++ vy.pyStr ++ "," ++ vx.pyStr ++ ")", ?_⟩
          simp only [if_true, pySubscript, hvy, hvx, ok_bind]
          rfl

/-- C9 counterexample: formatting DOES throw on some records.  A numeric
`name` raises `TypeError` at `"トレイラー" in name`, and a string-valued
`end_location` containing both coordinate letters passes the two membership
tests and then raises at `location['y']`; neither raise is caught inside
`send_discord_notification`. -/
theorem formatting_raises_counterexample :
    formatMessage [("bike_id", JVal.jnum 1), ("name", JVal.jnum 5)] = .error () ∧
    formatMessage [("bike_id", JVal.jnum 2), ("end_location", JVal.jstr "xy")] = .error () := by
  exact ⟨rfl, rfl⟩

/-- C9 amended: formatting never throws on records whose `name` value
supports membership tests (a string, list or dict — including the default
`"不明"` when the field is absent) and whose `end_location` is falsy, a
dict, or a string/list for which the two coordinate membership tests do not
both succeed.  This covers absent fields, the `"-"` sentinel and arbitrary
non-ISO timestamp strings (`format_datetime` is total); it excludes
numeric, null or boolean names and the truthy non-dict `end_location`
values that reach a raising membership test or subscript. -/
theorem formatting_total_on_safe_records (r : Record)
    (hname : memberTestable (Record.getD r "name" (.jstr "不明")) = true)
    (hloc : locationSafe (Record.get r "end_location") = true) :
    ∃ m, formatMessage r = .ok m := by
  obtain ⟨ft, hft⟩ := featureText_ok _ hname
  obtain ⟨ml, hml⟩ := mapLinkText_ok _ hloc
  apply exists_ok_of_isOk
  simp only [formatMessage, hft, hml, ok_bind]
  rfl

/-- Closed instance of `formatting_total_on_safe_records`: a record with
missing fields elsewhere, the `"-"` sentinel, a non-ISO timestamp and a
dict `end_location`. -/
theorem formatting_total_on_safe_records_witness :
    memberTestable (Record.getD [("name", JVal.jstr "電動チャイルド号"), ("end_date", JVal.jstr "-"),
        ("scheduled_start", JVal.jstr "not-a-date"),
        ("end_location", JVal.jobj [("x", JVal.jnum 139), ("y", JVal.jnum 35)])] "name" (.jstr "不明")) = true ∧
    locationSafe (Record.get [("name", JVal.jstr "電動チャイルド号"), ("end_date", JVal.jstr "-"),
        ("scheduled_start", JVal.jstr "not-a-date"),
        ("end_location", JVal.jobj [("x", JVal.jnum 139), ("y", JVal.jnum 35)])] "end_location") = true ∧
    ∃ m, formatMessage [("name", JVal.jstr "電動チャイルド号"), ("end_date", JVal.jstr "-"),
        ("scheduled_start", JVal.jstr "not-a-date"),
        ("end_location", JVal.jobj [("x", JVal.jnum 139), ("y", JVal.jnum 35)])] = .ok m := by
  exact ⟨rfl, rfl, formatting_total_on_safe_records _ rfl rfl⟩
